import Mathlib

/-!
Verification development for the SYCL semantic-analysis pass
(`clang/lib/Sema/SemaSYCL.cpp`).

The pass is shallowly embedded: function declarations are identified by
natural numbers, the call graph is a function `Nat → List Nat` (the callee
list of `CallGraph::getNode`, `[]` when the function has no node), and the
clang type system is restricted to the five classifications the pass
distinguishes (scalar, pointer, SYCL accessor, SYCL sampler, record).
Recursive walks that terminate in C++ by set-based memoization are embedded
with an explicit fuel argument; sufficiency of fuel in the order of the
call-graph size is proved where a claim speaks about termination.
-/

set_option maxHeartbeats 1000000

/-- State threaded through `MarkDeviceFunction::CollectKernelSet`:
`kernelSet` models the member `KernelSet` (the set of functions reachable
from a kernel, also used as the global memoization set) and `recursiveSet`
models the member `RecursiveSet`. -/
structure CKState where
  kernelSet : Finset Nat
  recursiveSet : Finset Nat
deriving DecidableEq

/-- The `for (const CallGraphNode *CI : *N)` loop body of
`MarkDeviceFunction::CollectKernelSet`.  `recur` stands for the recursive
call `CollectKernelSet(Callee, FD, VisitedSet)` (with one unit of fuel
consumed by the caller).  A callee already in the path-local `VisitedSet`
puts both the callee and the current node into `RecursiveSet`; otherwise the
walk descends with the callee added to the visited set (the C++ code erases
the callee again after returning, so the siblings see the original set,
which the functional embedding gets for free). -/
def collectCallees (recur : Nat → Finset Nat → CKState → Option CKState)
    (calleeNode : Nat) (visitedSet : Finset Nat) :
    List Nat → CKState → Option CKState
  | [], st => some st
  | callee :: rest, st =>
    if callee ∈ visitedSet then
      collectCallees recur calleeNode visitedSet rest
        ⟨st.kernelSet, insert calleeNode (insert callee st.recursiveSet)⟩
    else
      match recur callee (insert callee visitedSet) st with
      | none => none
      | some st1 => collectCallees recur calleeNode visitedSet rest st1

/-- `MarkDeviceFunction::CollectKernelSet(CalleeNode, FD, VisitedSet)`.
The unused second C++ parameter `FD` is dropped.  The function first tries
`KernelSet.insert(CalleeNode)` and stops if the node was previously seen;
otherwise it iterates over the node's callees.  The C++ recursion terminates
because `KernelSet` grows; the embedding makes this explicit with fuel
(`none` = fuel exhausted, which the sufficiency theorem rules out). -/
def collectKernelSet (g : Nat → List Nat) :
    Nat → Nat → Finset Nat → CKState → Option CKState
  | 0, _, _, _ => none
  | fuel + 1, calleeNode, visitedSet, st =>
    if calleeNode ∈ st.kernelSet then some st
    else
      collectCallees (fun c v s => collectKernelSet g fuel c v s) calleeNode
        visitedSet (g calleeNode) ⟨insert calleeNode st.kernelSet, st.recursiveSet⟩

/-- Diagnostics of `MarkDeviceFunction::VisitCallExpr` for recursion: for
every call edge whose resolved callee is in `RecursiveSet`, an
`err_sycl_restrict` is placed at the call site and a
`note_sycl_recursive_function_declared_here` at the callee's declaration.
The function lists, per flagged call edge, the function declaration the
diagnostic pair references (the callee). -/
def diagReferencedCallees (edges : List (Nat × Nat)) (recSet : Finset Nat) :
    List Nat :=
  (edges.filter (fun e => decide (e.2 ∈ recSet))).map (fun e => e.2)

/-- Call graph in which the kernel entry point `0` itself lies on the cycle
`0 → 1 → 2 → 0`. -/
def gEntryCycle : Nat → List Nat
  | 0 => [1]
  | 1 => [2]
  | 2 => [0]
  | _ => []

/-- Call graph with entry point `0` and a cycle `1 → 2 → 3 → 1` strictly
below it. -/
def gBelowCycle : Nat → List Nat
  | 0 => [1]
  | 1 => [2]
  | 2 => [3]
  | 3 => [1]
  | _ => []

/-- The edge list of `gBelowCycle` (for the call-site diagnostics). -/
def edgesBelowCycle : List (Nat × Nat) := [(0, 1), (1, 2), (2, 3), (3, 1)]

/-- Attribute kinds distinguished by `Sema::MarkDevice`'s switch: the
`IntelReqdSubGroupSize` case and everything else (the `default:` arm, which
is `llvm_unreachable`). -/
inductive AttrKind where
  | intelReqdSubGroupSize
  | otherKind
deriving DecidableEq

/-- One attribute instance.  `ident` models the object identity of the
clang `Attr *` (two attributes written at different source positions are
different objects even when their values agree), `value` models
`getSubGroupSize()`. -/
structure AttrInst where
  ident : Nat
  kind : AttrKind
  value : Nat
deriving DecidableEq

/-- Whether an attribute is of the `IntelReqdSubGroupSizeAttr` C++ type. -/
def isIntelReqdSubGroupSizeAttr (a : AttrInst) : Bool :=
  match a.kind with
  | AttrKind.intelReqdSubGroupSize => true
  | AttrKind.otherKind => false

/-- `FD->getAttr<IntelReqdSubGroupSizeAttr>()`: the first attribute of that
C++ type carried by the declaration `fd` (`attrsOf` enumerates a
declaration's attributes). -/
def getIntelReqdSubGroupSizeAttr (attrsOf : Nat → List AttrInst) (fd : Nat) :
    Option AttrInst :=
  (attrsOf fd).find? isIntelReqdSubGroupSizeAttr

/-- `MarkDeviceFunction::CollectPossibleKernelAttributes`: an explicit
worklist (popped LIFO like the C++ `SmallVector::pop_back`; pushing the
callees one by one onto the front-modelled stack is the `reverse ++`),
a visited set, and the accumulated attribute set (a `SmallPtrSet<Attr *>`,
modelled as a duplicate-free list keyed by object identity).  Fuel models
the finitely many loop iterations of the C++ `while`. -/
def collectPossibleKernelAttributes (g : Nat → List Nat)
    (attrsOf : Nat → List AttrInst) :
    Nat → List Nat → List Nat → List AttrInst → List AttrInst
  | 0, _, _, acc => acc
  | _ + 1, [], _, acc => acc
  | fuel + 1, fd :: workList, visited, acc =>
    if fd ∈ visited then
      collectPossibleKernelAttributes g attrsOf fuel workList visited acc
    else
      let visited1 := fd :: visited
      let acc1 :=
        match getIntelReqdSubGroupSizeAttr attrsOf fd with
        | some a => if a ∈ acc then acc else acc ++ [a]
        | none => acc
      let pushed := ((g fd).filter (fun c => decide (¬ c ∈ visited1))).reverse
        ++ workList
      collectPossibleKernelAttributes g attrsOf fuel pushed visited1 acc1

/-- State of the attribute loop in `Sema::MarkDevice`: the
`IntelReqdSubGroupSizeAttr` currently attached to the kernel entry point,
whether `setInvalidDecl()` ran, the number of
`err_conflicting_sycl_kernel_attributes` diagnostics, the number of
`note_conflicting_attribute` notes, and whether the `default:`
`llvm_unreachable` arm was ever reached. -/
structure MDState where
  existing : Option AttrInst
  invalid : Bool
  conflictDiags : Nat
  conflictNotes : Nat
  unreachableHit : Bool
deriving DecidableEq

/-- One iteration of `for (auto *A : Attrs)` in `Sema::MarkDevice`: on a
collected `IntelReqdSubGroupSize` attribute, compare with the attribute the
kernel already carries — differing values yield one conflict error plus one
note per contributing origin (the existing attribute and the discovered
one) and invalidate the kernel; an equal value is silently ignored; with no
existing attribute the discovered one is attached.  Any other attribute
kind reaches the `default: llvm_unreachable` arm. -/
def markDeviceAttrStep (st : MDState) (a : AttrInst) : MDState :=
  match a.kind with
  | AttrKind.intelReqdSubGroupSize =>
    match st.existing with
    | some existingAttr =>
      if existingAttr.value ≠ a.value then
        ⟨st.existing, true, st.conflictDiags + 1, st.conflictNotes + 2,
          st.unreachableHit⟩
      else st
    | none =>
      ⟨some a, st.invalid, st.conflictDiags, st.conflictNotes,
        st.unreachableHit⟩
  | AttrKind.otherKind =>
    ⟨st.existing, st.invalid, st.conflictDiags, st.conflictNotes, true⟩

/-- The attribute loop of `Sema::MarkDevice` over the collected attribute
set, starting from the kernel's pre-existing `IntelReqdSubGroupSizeAttr`
(if any) and clean diagnostics. -/
def markDeviceAttrs (kernelAttr : Option AttrInst)
    (collected : List AttrInst) : MDState :=
  collected.foldl markDeviceAttrStep ⟨kernelAttr, false, 0, 0, false⟩

/-- Call graph for the attribute-conflict scenario: the kernel `0` calls
`1` and `2` on two different paths. -/
def gAttrPaths : Nat → List Nat
  | 0 => [1, 2]
  | _ => []

/-- Attributes for the conflict scenario: function `1` requires sub-group
size 16, function `2` requires 32. -/
def attrsOfConflict : Nat → List AttrInst
  | 1 => [⟨1, AttrKind.intelReqdSubGroupSize, 16⟩]
  | 2 => [⟨2, AttrKind.intelReqdSubGroupSize, 32⟩]
  | _ => []

/-- Parameter-descriptor kinds of `SYCLIntegrationHeader`
(`kernel_param_kind_t`). -/
inductive ParamKind where
  | accessorKind
  | stdLayoutKind
  | samplerKind
  | pointerKind
deriving DecidableEq

/-- One `kernel_param_desc_t` triple `{ kind, info, offset }` as emitted
into `kernel_signatures[]` by `SYCLIntegrationHeader::addParamDesc`. -/
structure HDesc where
  kind : ParamKind
  info : Nat
  offset : Nat
deriving DecidableEq

/-- One entry of the `KernelDescs` registry: kernel name and its ordered
parameter descriptors. -/
structure KernelDesc where
  name : String
  params : List HDesc
deriving DecidableEq

/-- The `kernel_signatures[]` array as actually emitted by
`SYCLIntegrationHeader::emit(raw_ostream &)`: each kernel's descriptors are
printed back to back (the loop prints one initializer per `K.Params` entry
and then only a blank separator line), so the array is the plain
concatenation — no sentinel entry is emitted after a kernel's region. -/
def kernelSignatures : List KernelDesc → List HDesc
  | [] => []
  | k :: ks => k.params ++ kernelSignatures ks

/-- The `kernel_signature_start[]` array: the emission loop prints the
running `CurStart` for each kernel and then advances it by
`K.Params.size() + 1`. -/
def kernelSignatureStart (curStart : Nat) : List KernelDesc → List Nat
  | [] => []
  | k :: ks => curStart :: kernelSignatureStart (curStart + k.params.length + 1) ks

/-- The per-kernel start offsets baked into the `KernelInfo`
specializations: this second loop resets `CurStart` to `0` and advances it
by `N = K.Params.size()` only (no `+1`). -/
def kernelInfoStarts (curStart : Nat) : List KernelDesc → List Nat
  | [] => []
  | k :: ks => curStart :: kernelInfoStarts (curStart + k.params.length) ks

/-- The emitted `KernelInfo<...>::getParamDesc(i)` of the `k`-th kernel:
`kernel_signatures[i + CurStart]` with `CurStart` taken from the second
(`+N`) accumulation. -/
def getParamDescModel (ks : List KernelDesc) (k i : Nat) : Option HDesc :=
  (kernelSignatures ks)[i + (kernelInfoStarts 0 ks).getD k 0]?

/-- Concrete registry with two kernels of one parameter each. -/
def exRegistry : List KernelDesc :=
  [⟨"kernelA", [⟨ParamKind.stdLayoutKind, 4, 0⟩]⟩,
   ⟨"kernelB", [⟨ParamKind.stdLayoutKind, 8, 0⟩]⟩]

/-- The tables of the integration-header artifact whose shape is part of
the external contract: `kernel_names[]`, `kernel_signatures[]` and
`kernel_signature_start[]`. -/
structure EmittedHeader where
  names : List String
  signatures : List HDesc
  signatureStarts : List Nat
deriving DecidableEq

/-- The artifact `SYCLIntegrationHeader::emit(raw_ostream &)` serializes
from the registry. -/
def emitArtifact (ks : List KernelDesc) : EmittedHeader :=
  ⟨ks.map KernelDesc.name, kernelSignatures ks, kernelSignatureStart 0 ks⟩

/-- `SYCLIntegrationHeader::emit(const StringRef &IntHeaderName)`: an empty
name returns `false` immediately; a failing `openFileForWrite` prints the
error code to `llvm::errs()` (a side channel, not the Sema diagnostics) and
returns `false` without aborting anything; otherwise the artifact is
written and the call returns `true`.  `writable` models whether
`openFileForWrite` succeeds on a given target name. -/
def emitToTarget (intHeaderName : String) (writable : String → Bool)
    (ks : List KernelDesc) : Bool × Option EmittedHeader :=
  if intHeaderName = "" then (false, none)
  else if writable intHeaderName then (true, some (emitArtifact ks))
  else (false, none)

/-! The fragment of the clang type system the pass distinguishes.  `Ty` and
`Fields` are mutual: a record carries its ordered field list, each field
with its byte offset within its owner (the byte offsets the external
`ASTRecordLayout` reports; the `getFieldOffset(...) / 8` bit-to-byte
conversion done at both query sites is absorbed into the stored offsets).
An accessor carries its `__init` contract (the canonicalized parameter
types, as opaque identifiers), its dimension count and access target
(template arguments 1 and 3); a sampler carries its `__init` contract and
the byte size of the contract's first parameter type.  The library-internal
fields of accessors and samplers are not modelled (accessors are recognized
before any field recursion; a sampler's fields are reachable only through
the nested-wrapper recursion and are taken to be empty). -/
mutual
/-- A clang type as classified by the pass. -/
inductive Ty where
  | scalar (sz : Nat)
  | pointer (sz : Nat) (pointeeAS : Nat)
  | accessor (initParamTys : List Nat) (dims : Nat) (accTarget : Nat)
  | sampler (initParamTys : List Nat) (arg0Sz : Nat)
  | record (sz : Nat) (stdLayout : Bool) (fields : Fields)
deriving DecidableEq
/-- An ordered field list, each field with its byte offset in its owner. -/
inductive Fields where
  | nil
  | cons (offset : Nat) (ty : Ty) (rest : Fields)
deriving DecidableEq
end

/-- `QualType::isStructureOrClassType()`: true for records of class/struct
kind — in particular also for the accessor and sampler classes themselves. -/
def Ty.isStructureOrClassType : Ty → Bool
  | Ty.accessor _ _ _ => true
  | Ty.sampler _ _ => true
  | Ty.record _ _ _ => true
  | _ => false

/-- `QualType::isPointerType()`. -/
def Ty.isPointerType : Ty → Bool
  | Ty.pointer _ _ => true
  | _ => false

/-- `QualType::isScalarType()`: in clang this includes pointer types. -/
def Ty.isScalarType : Ty → Bool
  | Ty.scalar _ => true
  | Ty.pointer _ _ => true
  | _ => false

/-- Whether `getAsCXXRecordDecl()` is non-null. -/
def Ty.hasCXXRecordDecl : Ty → Bool
  | Ty.accessor _ _ _ => true
  | Ty.sampler _ _ => true
  | Ty.record _ _ _ => true
  | _ => false

/-- `Util::isSyclAccessorType`: full specialization of
`cl::sycl::accessor`. -/
def isSyclAccessorType : Ty → Bool
  | Ty.accessor _ _ _ => true
  | _ => false

/-- `Util::isSyclSamplerType`: the `cl::sycl::sampler` class. -/
def isSyclSamplerType : Ty → Bool
  | Ty.sampler _ _ => true
  | _ => false

/-- `QualType::isStandardLayoutType()` (only ever queried on the record
branch of the builder). -/
def Ty.isStandardLayoutType : Ty → Bool
  | Ty.record _ sl _ => sl
  | _ => true

/-- Parameter types of the `__init` method contract (`getInitMethod`
followed by parameter enumeration); empty for types without `__init`,
which the pass never queries (guarded by asserts in the source). -/
def initParamTysOf : Ty → List Nat
  | Ty.accessor ps _ _ => ps
  | Ty.sampler ps _ => ps
  | _ => []

/-- `ASTContext::getTypeSizeInChars` for the type classifications whose
size the header codegen reports (accessor and sampler sizes are never
queried on the modelled paths). -/
def Ty.sizeOfTy : Ty → Nat
  | Ty.scalar sz => sz
  | Ty.pointer sz _ => sz
  | Ty.record sz _ _ => sz
  | Ty.accessor _ _ _ => 0
  | Ty.sampler _ _ => 0

/-- The `LangAS::opencl_global` address space tag. -/
def openclGlobalAS : Nat := 1

/-- The pointer-argument rewrite of `buildArgTys`: the pointee is
re-qualified with the `opencl_global` address space and the pointer type is
rebuilt. -/
def modifyPointerAS : Ty → Ty
  | Ty.pointer sz _ => Ty.pointer sz openclGlobalAS
  | t => t

/-- One raw parameter slot of the flattened kernel signature (one `ParamDesc`
of `buildArgTys`, sans the `_arg_<field>` name and `TypeSourceInfo`): either
a field's own (possibly address-space-modified) type, or one canonicalized
parameter type of a special object's `__init` contract. -/
inductive SlotTy where
  | ofTy (t : Ty)
  | initParamTy (p : Nat)
deriving DecidableEq

/-- `createSpecialSYCLObjParamDesc`: one raw slot per `__init` contract
parameter, in contract order, carrying the contract's canonicalized
parameter types. -/
def createSpecialSYCLObjParamDesc (t : Ty) : List SlotTy :=
  (initParamTysOf t).map SlotTy.initParamTy

mutual
/-- `createParamDescForWrappedAccessors` of `buildArgTys`: re-scan a
wrapper aggregate's own fields; a structure-or-class field that is a SYCL
accessor contributes its contract slots, any other structure-or-class field
is recursed into, every other field contributes nothing. -/
def createParamDescForWrappedAccessors : Ty → List SlotTy
  | Ty.record _ _ fs => wrappedAccessorSlots fs
  | _ => []
/-- The field loop of `createParamDescForWrappedAccessors`. -/
def wrappedAccessorSlots : Fields → List SlotTy
  | Fields.nil => []
  | Fields.cons _ fldTy rest =>
    (if fldTy.isStructureOrClassType then
      if isSyclAccessorType fldTy then createSpecialSYCLObjParamDesc fldTy
      else createParamDescForWrappedAccessors fldTy
    else []) ++ wrappedAccessorSlots rest
end

/-- The field loop of `buildArgTys` over the kernel object's fields:
special objects contribute their contract slots; a structure-or-class field
contributes one slot for the aggregate itself followed by the slots of its
wrapped accessors (the non-standard-layout case additionally emits a
diagnostic in the source but is processed identically); a pointer field
contributes one slot with the address-space-modified type; a scalar field
contributes one slot of its own type.  The final `else` is
`llvm_unreachable` in the source; no `Ty` constructor reaches it. -/
def buildArgTysFields : Fields → List SlotTy
  | Fields.nil => []
  | Fields.cons _ argTy rest =>
    (if isSyclAccessorType argTy || isSyclSamplerType argTy then
      createSpecialSYCLObjParamDesc argTy
    else if argTy.isStructureOrClassType then
      SlotTy.ofTy argTy :: createParamDescForWrappedAccessors argTy
    else if argTy.isPointerType then
      [SlotTy.ofTy (modifyPointerAS argTy)]
    else if argTy.isScalarType then
      [SlotTy.ofTy argTy]
    else []) ++ buildArgTysFields rest

/-- `paramKind2Str`-level accessor `Info` packing of `populateIntHeader`:
the access target (template argument 3) or-ed with the dimension count
(template argument 1) shifted left by 11. -/
def accessorInfo : Ty → Nat
  | Ty.accessor _ dims accTarget => accTarget ||| (dims <<< 11)
  | _ => 0

/-- `populateHeaderForAccessor`: one `kind_accessor` descriptor with the
packed target/dims `Info` at the given accumulated byte offset. -/
def populateHeaderForAccessor (t : Ty) (offset : Nat) : HDesc :=
  ⟨ParamKind.accessorKind, accessorInfo t, offset⟩

mutual
/-- `populateHeaderForWrappedAccessors` of `populateIntHeader`: walk a
wrapper's fields; for each structure-or-class field take its byte offset in
the wrapper, emit an accessor descriptor at the accumulated offset if it is
an accessor, else recurse with the accumulated offset. -/
def populateHeaderForWrappedAccessors : Ty → Nat → List HDesc
  | Ty.record _ _ fs, offset => headerWrappedFields fs offset
  | _, _ => []
/-- The field loop of `populateHeaderForWrappedAccessors`. -/
def headerWrappedFields : Fields → Nat → List HDesc
  | Fields.nil, _ => []
  | Fields.cons offInWrapper fldTy rest, offset =>
    (if fldTy.isStructureOrClassType then
      if isSyclAccessorType fldTy then
        [populateHeaderForAccessor fldTy (offset + offInWrapper)]
      else populateHeaderForWrappedAccessors fldTy (offset + offInWrapper)
    else []) ++ headerWrappedFields rest offset
end

/-- The byte size of the sampler `__init` method's single parameter, as
queried by the sampler branch of `populateIntHeader`. -/
def samplerArg0Sz : Ty → Nat
  | Ty.sampler _ s => s
  | _ => 0

/-- The field loop of `populateIntHeader` over the kernel object's fields
(each field's byte offset taken from the record layout): accessors emit a
`kind_accessor` descriptor; samplers a `kind_sampler` descriptor carrying
the size of the `__init` parameter; pointers a `kind_pointer` descriptor;
structure-or-class or scalar fields a `kind_std_layout` descriptor followed,
for structure-or-class fields, by the descriptors of their wrapped
accessors.  The final `else` is `llvm_unreachable` in the source. -/
def populateIntHeaderFields : Fields → List HDesc
  | Fields.nil => []
  | Fields.cons offset argTy rest =>
    (if isSyclAccessorType argTy then
      [populateHeaderForAccessor argTy offset]
    else if isSyclSamplerType argTy then
      [⟨ParamKind.samplerKind, samplerArg0Sz argTy, offset⟩]
    else if argTy.isPointerType then
      [⟨ParamKind.pointerKind, argTy.sizeOfTy, offset⟩]
    else if argTy.isStructureOrClassType || argTy.isScalarType then
      ⟨ParamKind.stdLayoutKind, argTy.sizeOfTy, offset⟩ ::
        (if argTy.isStructureOrClassType then
          populateHeaderForWrappedAccessors argTy offset
        else [])
    else []) ++ populateIntHeaderFields rest

/-- A member-access chain in the synthesized kernel body:
`localRef` is the reference to the local kernel-object clone,
`member b i` selects field number `i` (declaration order) of `b`. -/
inductive KExpr where
  | localRef
  | member (base : KExpr) (fieldIdx : Nat)
deriving DecidableEq

/-- A statement of the synthesized OpenCL kernel body
(`CreateOpenCLKernelBody`): the local kernel-object clone declaration, a
`lambda.field = kernel_parameter` assignment (the parameter named by its
index in the flat parameter list), an `obj.field.__init(params...)` call,
or the transformed (spliced) kernel caller body. -/
inductive KStmt where
  | declareClone
  | assignStmt (lhs : KExpr) (param : Nat)
  | initCall (obj : KExpr) (params : List Nat)
  | spliced
deriving DecidableEq

/-- `getExprForSpecialSYCLObj`: the `__init` member call on field `fieldIdx`
of `base`, passing the next `NumParams` kernel parameters starting at the
one `KernelFuncParam` currently points to (`ctr`), in contract order. -/
def specialObjInit (t : Ty) (base : KExpr) (fieldIdx : Nat) (ctr : Nat) :
    KStmt :=
  KStmt.initCall (KExpr.member base fieldIdx)
    ((List.range (initParamTysOf t).length).map (fun i => ctr + i))

/-! `getExprForWrappedAccessorInit` of `CreateOpenCLKernelBody`, threading
the `KernelFuncParam` iterator as the index `ctr` of the parameter it
points to.  On a nested accessor the C++ code first advances the iterator
by one (past the wrapper slot or the previous accessor's last slot), emits
the `__init` call consuming `NumParams` parameters, and leaves the iterator
on the last consumed one (`std::advance(KernelFuncParam, NumParams - 1)`).
A nested non-accessor structure-or-class becomes the new base and is
recursed into without consuming a parameter. -/
mutual
/-- Entry on a wrapper type (iterates the wrapper's own fields). -/
def wrappedAccessorInit : Ty → KExpr → Nat → List KStmt × Nat
  | Ty.record _ _ fs, base, ctr => wrappedAccessorInitFields fs 0 base ctr
  | _, _, ctr => ([], ctr)
/-- The field loop of `getExprForWrappedAccessorInit`. -/
def wrappedAccessorInitFields : Fields → Nat → KExpr → Nat → List KStmt × Nat
  | Fields.nil, _, _, ctr => ([], ctr)
  | Fields.cons _ fldTy rest, idx, base, ctr =>
    if fldTy.isStructureOrClassType then
      if isSyclAccessorType fldTy then
        let stmt := specialObjInit fldTy base idx (ctr + 1)
        let ctr2 := ctr + 1 + (initParamTysOf fldTy).length - 1
        let pr := wrappedAccessorInitFields rest (idx + 1) base ctr2
        (stmt :: pr.1, pr.2)
      else
        let nested := wrappedAccessorInit fldTy (KExpr.member base idx) ctr
        let pr := wrappedAccessorInitFields rest (idx + 1) base nested.2
        (nested.1 ++ pr.1, pr.2)
    else
      wrappedAccessorInitFields rest (idx + 1) base ctr
end

/-- The field loop of `CreateOpenCLKernelBody`, threading the
`KernelFuncParam` iterator as the index `ctr` of the parameter it points
to (at each field's start: the field's first parameter).  A special object
field emits its `__init` call and nets an advance of `NumParams`
(`std::advance(..., NumParams - 1)` plus the loop's `KernelFuncParam++`).
A field with a `CXXRecordDecl` or of scalar type is assigned its one
parameter, and a record field afterwards initializes its wrapped accessors
relative to the assigned member (`Lhs`); the loop's increment then moves
past the last consumed parameter.  The final `else` is `llvm_unreachable`
in the source; no `Ty` constructor reaches it. -/
def bodyFields : Fields → Nat → Nat → List KStmt × Nat
  | Fields.nil, _, ctr => ([], ctr)
  | Fields.cons _ fieldType rest, idx, ctr =>
    if isSyclAccessorType fieldType || isSyclSamplerType fieldType then
      let stmt := specialObjInit fieldType KExpr.localRef idx ctr
      let pr := bodyFields rest (idx + 1) (ctr + (initParamTysOf fieldType).length)
      (stmt :: pr.1, pr.2)
    else if fieldType.hasCXXRecordDecl || fieldType.isScalarType then
      let assign := KStmt.assignStmt (KExpr.member KExpr.localRef idx) ctr
      let nested :=
        if fieldType.hasCXXRecordDecl then
          wrappedAccessorInit fieldType (KExpr.member KExpr.localRef idx) ctr
        else ([], ctr)
      let pr := bodyFields rest (idx + 1) (nested.2 + 1)
      (assign :: (nested.1 ++ pr.1), pr.2)
    else ([], ctr)

/-- `CreateOpenCLKernelBody`: the local clone declaration is always pushed
first, then the per-field initializations, and finally the transformed
kernel caller body. -/
def createOpenCLKernelBody (kernelFields : Fields) : List KStmt :=
  KStmt.declareClone :: ((bodyFields kernelFields 0 0).1 ++ [KStmt.spliced])

/-- Number of parameters of the synthesized entry point:
`CreateOpenCLKernelDeclaration` creates exactly one `ParmVarDecl` per
descriptor of `buildArgTys`. -/
def entryPointParamCount (kernelFields : Fields) : Nat :=
  (buildArgTysFields kernelFields).length

/-- One classification event of the shared field traversal: a top-level
special object (accessor or sampler), a top-level wrapper aggregate, a
top-level pointer, a top-level scalar, or a nested accessor discovered
inside wrapper aggregates (with its accumulated byte offset). -/
inductive VisitEvent where
  | specialTop (t : Ty) (offset : Nat)
  | wrapperTop (t : Ty) (offset : Nat)
  | pointerTop (t : Ty) (offset : Nat)
  | scalarTop (t : Ty) (offset : Nat)
  | nestedAccessor (t : Ty) (offset : Nat)
deriving DecidableEq

/-! The classification decisions of the nested-wrapper traversal as a pure
function of the types (offsets accumulated as in the source): this is the
common traversal both `createParamDescForWrappedAccessors` (builder) and
`populateHeaderForWrappedAccessors` (header codegen) follow. -/
mutual
/-- Trace of the nested traversal entered on a wrapper type. -/
def classifyTraceTy : Ty → Nat → List VisitEvent
  | Ty.record _ _ fs, offset => classifyTraceFields fs offset
  | _, _ => []
/-- Trace of the nested traversal over a wrapper's field list. -/
def classifyTraceFields : Fields → Nat → List VisitEvent
  | Fields.nil, _ => []
  | Fields.cons offIn fldTy rest, offset =>
    (if fldTy.isStructureOrClassType then
      if isSyclAccessorType fldTy then
        [VisitEvent.nestedAccessor fldTy (offset + offIn)]
      else classifyTraceTy fldTy (offset + offIn)
    else []) ++ classifyTraceFields rest offset
end

/-- The classification decisions of the top-level kernel-object field
traversal, as a pure function of the field types. -/
def kernelTrace : Fields → List VisitEvent
  | Fields.nil => []
  | Fields.cons offset t rest =>
    (if isSyclAccessorType t || isSyclSamplerType t then
      [VisitEvent.specialTop t offset]
    else if t.isStructureOrClassType then
      VisitEvent.wrapperTop t offset :: classifyTraceTy t offset
    else if t.isPointerType then
      [VisitEvent.pointerTop t offset]
    else if t.isScalarType then
      [VisitEvent.scalarTop t offset]
    else []) ++ kernelTrace rest

/-- What the signature builder emits for one classification event. -/
def builderOfEvent : VisitEvent → List SlotTy
  | VisitEvent.specialTop t _ => createSpecialSYCLObjParamDesc t
  | VisitEvent.wrapperTop t _ => [SlotTy.ofTy t]
  | VisitEvent.pointerTop t _ => [SlotTy.ofTy (modifyPointerAS t)]
  | VisitEvent.scalarTop t _ => [SlotTy.ofTy t]
  | VisitEvent.nestedAccessor t _ => createSpecialSYCLObjParamDesc t

/-- What the header codegen emits for one classification event (the
special/accessor-vs-sampler sub-distinction is itself a pure function of
the type). -/
def headerOfEvent : VisitEvent → List HDesc
  | VisitEvent.specialTop t offset =>
    if isSyclAccessorType t then [populateHeaderForAccessor t offset]
    else [⟨ParamKind.samplerKind, samplerArg0Sz t, offset⟩]
  | VisitEvent.wrapperTop t offset =>
    [⟨ParamKind.stdLayoutKind, t.sizeOfTy, offset⟩]
  | VisitEvent.pointerTop t offset =>
    [⟨ParamKind.pointerKind, t.sizeOfTy, offset⟩]
  | VisitEvent.scalarTop t offset =>
    [⟨ParamKind.stdLayoutKind, t.sizeOfTy, offset⟩]
  | VisitEvent.nestedAccessor t offset =>
    [populateHeaderForAccessor t offset]

/-- Concatenation of the builder outputs of a trace. -/
def eventsSlots : List VisitEvent → List SlotTy
  | [] => []
  | e :: es => builderOfEvent e ++ eventsSlots es

/-- Concatenation of the header outputs of a trace. -/
def eventsHDescs : List VisitEvent → List HDesc
  | [] => []
  | e :: es => headerOfEvent e ++ eventsHDescs es

/-- Syntactic append on field lists. -/
def Fields.append : Fields → Fields → Fields
  | Fields.nil, gs => gs
  | Fields.cons o t rest, gs => Fields.cons o t (Fields.append rest gs)

/-- Number of fields. -/
def Fields.numFields : Fields → Nat
  | Fields.nil => 0
  | Fields.cons _ _ rest => Fields.numFields rest + 1

/-- Contract slots of a list of special-object types, concatenated. -/
def specialSlotsOfList : List Ty → List SlotTy
  | [] => []
  | t :: ts => createSpecialSYCLObjParamDesc t ++ specialSlotsOfList ts

/-! The special-object types the nested-wrapper re-scan discovers, in
visit order (read off `createParamDescForWrappedAccessors` branch
structure). -/
mutual
/-- Discovered special objects under a wrapper type. -/
def nestedAccessorTys : Ty → List Ty
  | Ty.record _ _ fs => nestedAccessorTysFields fs
  | _ => []
/-- Discovered special objects under a field list. -/
def nestedAccessorTysFields : Fields → List Ty
  | Fields.nil => []
  | Fields.cons _ fldTy rest =>
    (if fldTy.isStructureOrClassType then
      if isSyclAccessorType fldTy then [fldTy]
      else nestedAccessorTys fldTy
    else []) ++ nestedAccessorTysFields rest
end

/-- A wrapper aggregate containing a single sampler field (the sampler has
a one-parameter `__init` contract). -/
def wrapperWithSampler : Ty :=
  Ty.record 8 true (Fields.cons 0 (Ty.sampler [7] 8) Fields.nil)

/-- Kernel object whose only field is `wrapperWithSampler`. -/
def kernelObjWithWrappedSampler : Fields :=
  Fields.cons 0 wrapperWithSampler Fields.nil


/-- The builder emits per top-level field independently, so it distributes
over field-list concatenation. -/
theorem buildArgTysFields_append : ∀ (fs gs : Fields),
    buildArgTysFields (Fields.append fs gs) =
      buildArgTysFields fs ++ buildArgTysFields gs
  | Fields.nil, gs => by simp [Fields.append, buildArgTysFields]
  | Fields.cons off t rest, gs => by
    simp [Fields.append, buildArgTysFields,
      buildArgTysFields_append rest gs, List.append_assoc]

mutual
/-- Counter lockstep for the nested traversal (wrapper entry): the body
synthesizer's `KernelFuncParam` iterator net advance over a wrapper equals
the number of slots the builder appends for the wrapper's nested
accessors. -/
theorem wrappedAccessorInit_ctr : ∀ (t : Ty) (base : KExpr) (ctr : Nat),
    (wrappedAccessorInit t base ctr).2 =
      ctr + (createParamDescForWrappedAccessors t).length
  | Ty.scalar _, _, _ => by
    simp [wrappedAccessorInit, createParamDescForWrappedAccessors]
  | Ty.pointer _ _, _, _ => by
    simp [wrappedAccessorInit, createParamDescForWrappedAccessors]
  | Ty.accessor _ _ _, _, _ => by
    simp [wrappedAccessorInit, createParamDescForWrappedAccessors]
  | Ty.sampler _ _, _, _ => by
    simp [wrappedAccessorInit, createParamDescForWrappedAccessors]
  | Ty.record _ _ fs, base, ctr => by
    simpa [wrappedAccessorInit, createParamDescForWrappedAccessors] using
      wrappedAccessorInitFields_ctr fs 0 base ctr

/-- Counter lockstep for the nested traversal (field-list loop). -/
theorem wrappedAccessorInitFields_ctr :
    ∀ (fs : Fields) (idx : Nat) (base : KExpr) (ctr : Nat),
    (wrappedAccessorInitFields fs idx base ctr).2 =
      ctr + (wrappedAccessorSlots fs).length
  | Fields.nil, _, _, _ => by
    simp [wrappedAccessorInitFields, wrappedAccessorSlots]
  | Fields.cons off (Ty.scalar sz) rest, idx, base, ctr => by
    simpa [wrappedAccessorInitFields, wrappedAccessorSlots,
      Ty.isStructureOrClassType] using
      wrappedAccessorInitFields_ctr rest (idx + 1) base ctr
  | Fields.cons off (Ty.pointer sz pAS) rest, idx, base, ctr => by
    simpa [wrappedAccessorInitFields, wrappedAccessorSlots,
      Ty.isStructureOrClassType] using
      wrappedAccessorInitFields_ctr rest (idx + 1) base ctr
  | Fields.cons off (Ty.accessor ps dims accTarget) rest, idx, base, ctr => by
    have harith : ctr + 1 + ps.length - 1 = ctr + ps.length := by omega
    have ih := wrappedAccessorInitFields_ctr rest (idx + 1) base
      (ctr + ps.length)
    simp [wrappedAccessorInitFields, wrappedAccessorSlots,
      Ty.isStructureOrClassType, isSyclAccessorType,
      createSpecialSYCLObjParamDesc, initParamTysOf, harith, ih]
    omega
  | Fields.cons off (Ty.sampler ps arg0) rest, idx, base, ctr => by
    have ih := wrappedAccessorInitFields_ctr rest (idx + 1) base ctr
    simp [wrappedAccessorInitFields, wrappedAccessorSlots,
      Ty.isStructureOrClassType, isSyclAccessorType, wrappedAccessorInit,
      createParamDescForWrappedAccessors, ih]
  | Fields.cons off (Ty.record sz sl fs2) rest, idx, base, ctr => by
    have h1 := wrappedAccessorInitFields_ctr fs2 0 (KExpr.member base idx) ctr
    have ih := wrappedAccessorInitFields_ctr rest (idx + 1) base
      (ctr + (wrappedAccessorSlots fs2).length)
    simp [wrappedAccessorInitFields, wrappedAccessorSlots,
      Ty.isStructureOrClassType, isSyclAccessorType, wrappedAccessorInit,
      createParamDescForWrappedAccessors, ih, h1]
    omega
end

/-- Counter lockstep for the top-level field loop: after processing a field
list the body synthesizer's parameter counter has advanced by exactly the
number of raw slots the builder emitted for it. -/
theorem bodyFields_ctr : ∀ (fs : Fields) (idx ctr : Nat),
    (bodyFields fs idx ctr).2 = ctr + (buildArgTysFields fs).length
  | Fields.nil, idx, ctr => by simp [bodyFields, buildArgTysFields]
  | Fields.cons off (Ty.scalar sz) rest, idx, ctr => by
    have ih := bodyFields_ctr rest (idx + 1) (ctr + 1)
    simp [bodyFields, buildArgTysFields, Ty.isStructureOrClassType,
      Ty.isScalarType, Ty.isPointerType, Ty.hasCXXRecordDecl,
      isSyclAccessorType, isSyclSamplerType, wrappedAccessorInit, ih]
    omega
  | Fields.cons off (Ty.pointer sz pAS) rest, idx, ctr => by
    have ih := bodyFields_ctr rest (idx + 1) (ctr + 1)
    simp [bodyFields, buildArgTysFields, Ty.isStructureOrClassType,
      Ty.isScalarType, Ty.isPointerType, Ty.hasCXXRecordDecl,
      isSyclAccessorType, isSyclSamplerType, wrappedAccessorInit, ih]
    omega
  | Fields.cons off (Ty.accessor ps dims accTarget) rest, idx, ctr => by
    have ih := bodyFields_ctr rest (idx + 1) (ctr + ps.length)
    simp [bodyFields, buildArgTysFields, isSyclAccessorType,
      isSyclSamplerType, createSpecialSYCLObjParamDesc, initParamTysOf, ih]
    omega
  | Fields.cons off (Ty.sampler ps arg0) rest, idx, ctr => by
    have ih := bodyFields_ctr rest (idx + 1) (ctr + ps.length)
    simp [bodyFields, buildArgTysFields, isSyclAccessorType,
      isSyclSamplerType, createSpecialSYCLObjParamDesc, initParamTysOf, ih]
    omega
  | Fields.cons off (Ty.record sz sl fs2) rest, idx, ctr => by
    have h1 := wrappedAccessorInitFields_ctr fs2 0
      (KExpr.member KExpr.localRef idx) ctr
    have ih := bodyFields_ctr rest (idx + 1)
      (ctr + (wrappedAccessorSlots fs2).length + 1)
    simp [bodyFields, buildArgTysFields, Ty.isStructureOrClassType,
      Ty.hasCXXRecordDecl, isSyclAccessorType, isSyclSamplerType,
      wrappedAccessorInit, createParamDescForWrappedAccessors, ih, h1]
    omega

/-- The body synthesizer also processes top-level fields independently:
splitting the field list splits the statement list, with the second part
starting at the field index and parameter counter the first part ends at. -/
theorem bodyFields_append : ∀ (fs gs : Fields) (idx ctr : Nat),
    bodyFields (Fields.append fs gs) idx ctr =
      ((bodyFields fs idx ctr).1 ++
        (bodyFields gs (idx + Fields.numFields fs) (bodyFields fs idx ctr).2).1,
       (bodyFields gs (idx + Fields.numFields fs) (bodyFields fs idx ctr).2).2)
  | Fields.nil, gs, idx, ctr => by
    simp [Fields.append, bodyFields, Fields.numFields]
  | Fields.cons off (Ty.scalar sz) rest, gs, idx, ctr => by
    have hshift : idx + 1 + Fields.numFields rest =
        idx + (Fields.numFields rest + 1) := by omega
    have ih := bodyFields_append rest gs (idx + 1) (ctr + 1)
    simp [Fields.append, bodyFields, Ty.isStructureOrClassType,
      Ty.isScalarType, Ty.hasCXXRecordDecl, isSyclAccessorType,
      isSyclSamplerType, wrappedAccessorInit, Fields.numFields, ih, hshift]
  | Fields.cons off (Ty.pointer sz pAS) rest, gs, idx, ctr => by
    have hshift : idx + 1 + Fields.numFields rest =
        idx + (Fields.numFields rest + 1) := by omega
    have ih := bodyFields_append rest gs (idx + 1) (ctr + 1)
    simp [Fields.append, bodyFields, Ty.isStructureOrClassType,
      Ty.isScalarType, Ty.hasCXXRecordDecl, isSyclAccessorType,
      isSyclSamplerType, wrappedAccessorInit, Fields.numFields, ih, hshift]
  | Fields.cons off (Ty.accessor ps dims accTarget) rest, gs, idx, ctr => by
    have hshift : idx + 1 + Fields.numFields rest =
        idx + (Fields.numFields rest + 1) := by omega
    have ih := bodyFields_append rest gs (idx + 1) (ctr + ps.length)
    simp [Fields.append, bodyFields, isSyclAccessorType, isSyclSamplerType,
      initParamTysOf, Fields.numFields, ih, hshift]
  | Fields.cons off (Ty.sampler ps arg0) rest, gs, idx, ctr => by
    have hshift : idx + 1 + Fields.numFields rest =
        idx + (Fields.numFields rest + 1) := by omega
    have ih := bodyFields_append rest gs (idx + 1) (ctr + ps.length)
    simp [Fields.append, bodyFields, isSyclAccessorType, isSyclSamplerType,
      initParamTysOf, Fields.numFields, ih, hshift]
  | Fields.cons off (Ty.record sz sl fs2) rest, gs, idx, ctr => by
    have hshift : idx + 1 + Fields.numFields rest =
        idx + (Fields.numFields rest + 1) := by omega
    have ih := bodyFields_append rest gs (idx + 1)
      ((wrappedAccessorInitFields fs2 0 (KExpr.member KExpr.localRef idx) ctr).2 + 1)
    simp [Fields.append, bodyFields, Ty.isStructureOrClassType,
      Ty.hasCXXRecordDecl, isSyclAccessorType, isSyclSamplerType,
      wrappedAccessorInit, Fields.numFields, ih, hshift]

/-- `eventsSlots` distributes over trace concatenation. -/
theorem eventsSlots_append : ∀ (es fs : List VisitEvent),
    eventsSlots (es ++ fs) = eventsSlots es ++ eventsSlots fs
  | [], fs => by simp [eventsSlots]
  | e :: es, fs => by
    simp [eventsSlots, eventsSlots_append es fs, List.append_assoc]

/-- `eventsHDescs` distributes over trace concatenation. -/
theorem eventsHDescs_append : ∀ (es fs : List VisitEvent),
    eventsHDescs (es ++ fs) = eventsHDescs es ++ eventsHDescs fs
  | [], fs => by simp [eventsHDescs]
  | e :: es, fs => by
    simp [eventsHDescs, eventsHDescs_append es fs, List.append_assoc]

mutual
/-- The nested-wrapper slot emission of the builder is exactly the builder
interpretation of the shared classification trace (wrapper entry).  The
trace's offsets are irrelevant to the builder, hence the arbitrary
`off`. -/
theorem wrappedSlots_factor : ∀ (t : Ty) (off : Nat),
    createParamDescForWrappedAccessors t = eventsSlots (classifyTraceTy t off)
  | Ty.scalar _, _ => by
    simp [createParamDescForWrappedAccessors, classifyTraceTy, eventsSlots]
  | Ty.pointer _ _, _ => by
    simp [createParamDescForWrappedAccessors, classifyTraceTy, eventsSlots]
  | Ty.accessor _ _ _, _ => by
    simp [createParamDescForWrappedAccessors, classifyTraceTy, eventsSlots]
  | Ty.sampler _ _, _ => by
    simp [createParamDescForWrappedAccessors, classifyTraceTy, eventsSlots]
  | Ty.record _ _ fs, off => by
    simpa [createParamDescForWrappedAccessors, classifyTraceTy] using
      wrappedSlotsFields_factor fs off

/-- The nested-wrapper slot emission of the builder, field-list loop. -/
theorem wrappedSlotsFields_factor : ∀ (fs : Fields) (off : Nat),
    wrappedAccessorSlots fs = eventsSlots (classifyTraceFields fs off)
  | Fields.nil, _ => by
    simp [wrappedAccessorSlots, classifyTraceFields, eventsSlots]
  | Fields.cons offIn (Ty.scalar sz) rest, off => by
    simpa [wrappedAccessorSlots, classifyTraceFields,
      Ty.isStructureOrClassType, eventsSlots_append] using
      wrappedSlotsFields_factor rest off
  | Fields.cons offIn (Ty.pointer sz pAS) rest, off => by
    simpa [wrappedAccessorSlots, classifyTraceFields,
      Ty.isStructureOrClassType, eventsSlots_append] using
      wrappedSlotsFields_factor rest off
  | Fields.cons offIn (Ty.accessor ps dims accTarget) rest, off => by
    have ih := wrappedSlotsFields_factor rest off
    simp [wrappedAccessorSlots, classifyTraceFields,
      Ty.isStructureOrClassType, isSyclAccessorType, eventsSlots_append,
      eventsSlots, builderOfEvent, ih]
  | Fields.cons offIn (Ty.sampler ps arg0) rest, off => by
    have ih := wrappedSlotsFields_factor rest off
    have h1 := wrappedSlots_factor (Ty.sampler ps arg0) (off + offIn)
    simp [wrappedAccessorSlots, classifyTraceFields,
      Ty.isStructureOrClassType, isSyclAccessorType, eventsSlots_append,
      ih, h1]
  | Fields.cons offIn (Ty.record sz sl fs2) rest, off => by
    have ih := wrappedSlotsFields_factor rest off
    have h1 := wrappedSlots_factor (Ty.record sz sl fs2) (off + offIn)
    simp [wrappedAccessorSlots, classifyTraceFields,
      Ty.isStructureOrClassType, isSyclAccessorType, eventsSlots_append,
      ih, h1]
end

mutual
/-- The nested-wrapper descriptor emission of the header codegen is exactly
the header interpretation of the shared classification trace (wrapper
entry), at the same accumulated offset. -/
theorem wrappedHeader_factor : ∀ (t : Ty) (off : Nat),
    populateHeaderForWrappedAccessors t off = eventsHDescs (classifyTraceTy t off)
  | Ty.scalar _, _ => by
    simp [populateHeaderForWrappedAccessors, classifyTraceTy, eventsHDescs]
  | Ty.pointer _ _, _ => by
    simp [populateHeaderForWrappedAccessors, classifyTraceTy, eventsHDescs]
  | Ty.accessor _ _ _, _ => by
    simp [populateHeaderForWrappedAccessors, classifyTraceTy, eventsHDescs]
  | Ty.sampler _ _, _ => by
    simp [populateHeaderForWrappedAccessors, classifyTraceTy, eventsHDescs]
  | Ty.record _ _ fs, off => by
    simpa [populateHeaderForWrappedAccessors, classifyTraceTy] using
      wrappedHeaderFields_factor fs off

/-- The nested-wrapper descriptor emission of the header codegen,
field-list loop. -/
theorem wrappedHeaderFields_factor : ∀ (fs : Fields) (off : Nat),
    headerWrappedFields fs off = eventsHDescs (classifyTraceFields fs off)
  | Fields.nil, _ => by
    simp [headerWrappedFields, classifyTraceFields, eventsHDescs]
  | Fields.cons offIn (Ty.scalar sz) rest, off => by
    simpa [headerWrappedFields, classifyTraceFields,
      Ty.isStructureOrClassType, eventsHDescs_append] using
      wrappedHeaderFields_factor rest off
  | Fields.cons offIn (Ty.pointer sz pAS) rest, off => by
    simpa [headerWrappedFields, classifyTraceFields,
      Ty.isStructureOrClassType, eventsHDescs_append] using
      wrappedHeaderFields_factor rest off
  | Fields.cons offIn (Ty.accessor ps dims accTarget) rest, off => by
    have ih := wrappedHeaderFields_factor rest off
    simp [headerWrappedFields, classifyTraceFields,
      Ty.isStructureOrClassType, isSyclAccessorType, eventsHDescs_append,
      eventsHDescs, headerOfEvent, ih]
  | Fields.cons offIn (Ty.sampler ps arg0) rest, off => by
    have ih := wrappedHeaderFields_factor rest off
    have h1 := wrappedHeader_factor (Ty.sampler ps arg0) (off + offIn)
    simp [headerWrappedFields, classifyTraceFields,
      Ty.isStructureOrClassType, isSyclAccessorType, eventsHDescs_append,
      ih, h1]
  | Fields.cons offIn (Ty.record sz sl fs2) rest, off => by
    have ih := wrappedHeaderFields_factor rest off
    have h1 := wrappedHeader_factor (Ty.record sz sl fs2) (off + offIn)
    simp [headerWrappedFields, classifyTraceFields,
      Ty.isStructureOrClassType, isSyclAccessorType, eventsHDescs_append,
      ih, h1]
end

/-- `specialSlotsOfList` distributes over concatenation. -/
theorem specialSlotsOfList_append : ∀ (l1 l2 : List Ty),
    specialSlotsOfList (l1 ++ l2) =
      specialSlotsOfList l1 ++ specialSlotsOfList l2
  | [], l2 => by simp [specialSlotsOfList]
  | t :: l1, l2 => by
    simp [specialSlotsOfList, specialSlotsOfList_append l1 l2,
      List.append_assoc]

mutual
/-- The nested re-scan emits exactly the contract slots of the special
objects it discovers, in discovery order (wrapper entry). -/
theorem wrappedSlots_as_discovered : ∀ (t : Ty),
    createParamDescForWrappedAccessors t =
      specialSlotsOfList (nestedAccessorTys t)
  | Ty.scalar _ => by
    simp [createParamDescForWrappedAccessors, nestedAccessorTys,
      specialSlotsOfList]
  | Ty.pointer _ _ => by
    simp [createParamDescForWrappedAccessors, nestedAccessorTys,
      specialSlotsOfList]
  | Ty.accessor _ _ _ => by
    simp [createParamDescForWrappedAccessors, nestedAccessorTys,
      specialSlotsOfList]
  | Ty.sampler _ _ => by
    simp [createParamDescForWrappedAccessors, nestedAccessorTys,
      specialSlotsOfList]
  | Ty.record _ _ fs => by
    simpa [createParamDescForWrappedAccessors, nestedAccessorTys] using
      wrappedSlotsFields_as_discovered fs

/-- The nested re-scan emits exactly the contract slots of the special
objects it discovers (field-list loop). -/
theorem wrappedSlotsFields_as_discovered : ∀ (fs : Fields),
    wrappedAccessorSlots fs =
      specialSlotsOfList (nestedAccessorTysFields fs)
  | Fields.nil => by
    simp [wrappedAccessorSlots, nestedAccessorTysFields, specialSlotsOfList]
  | Fields.cons off (Ty.scalar sz) rest => by
    simpa [wrappedAccessorSlots, nestedAccessorTysFields,
      Ty.isStructureOrClassType, specialSlotsOfList_append] using
      wrappedSlotsFields_as_discovered rest
  | Fields.cons off (Ty.pointer sz pAS) rest => by
    simpa [wrappedAccessorSlots, nestedAccessorTysFields,
      Ty.isStructureOrClassType, specialSlotsOfList_append] using
      wrappedSlotsFields_as_discovered rest
  | Fields.cons off (Ty.accessor ps dims accTarget) rest => by
    have ih := wrappedSlotsFields_as_discovered rest
    simp [wrappedAccessorSlots, nestedAccessorTysFields,
      Ty.isStructureOrClassType, isSyclAccessorType,
      specialSlotsOfList_append, specialSlotsOfList, ih]
  | Fields.cons off (Ty.sampler ps arg0) rest => by
    have ih := wrappedSlotsFields_as_discovered rest
    have h1 := wrappedSlots_as_discovered (Ty.sampler ps arg0)
    simp [wrappedAccessorSlots, nestedAccessorTysFields,
      Ty.isStructureOrClassType, isSyclAccessorType,
      specialSlotsOfList_append, ih, h1]
  | Fields.cons off (Ty.record sz sl fs2) rest => by
    have ih := wrappedSlotsFields_as_discovered rest
    have h1 := wrappedSlots_as_discovered (Ty.record sz sl fs2)
    simp [wrappedAccessorSlots, nestedAccessorTysFields,
      Ty.isStructureOrClassType, isSyclAccessorType,
      specialSlotsOfList_append, ih, h1]
end

mutual
/-- Everything the nested re-scan discovers is an accessor — in particular
no sampler is ever discovered there (wrapper entry). -/
theorem nestedAccessorTys_all_accessors : ∀ (t : Ty),
    (nestedAccessorTys t).all isSyclAccessorType = true
  | Ty.scalar _ => by simp [nestedAccessorTys]
  | Ty.pointer _ _ => by simp [nestedAccessorTys]
  | Ty.accessor _ _ _ => by simp [nestedAccessorTys]
  | Ty.sampler _ _ => by simp [nestedAccessorTys]
  | Ty.record _ _ fs => by
    simpa [nestedAccessorTys] using nestedAccessorTysFields_all_accessors fs

/-- Everything the nested re-scan discovers is an accessor (field-list
loop). -/
theorem nestedAccessorTysFields_all_accessors : ∀ (fs : Fields),
    (nestedAccessorTysFields fs).all isSyclAccessorType = true
  | Fields.nil => by simp [nestedAccessorTysFields]
  | Fields.cons off (Ty.scalar sz) rest => by
    simpa [nestedAccessorTysFields, Ty.isStructureOrClassType] using
      nestedAccessorTysFields_all_accessors rest
  | Fields.cons off (Ty.pointer sz pAS) rest => by
    simpa [nestedAccessorTysFields, Ty.isStructureOrClassType] using
      nestedAccessorTysFields_all_accessors rest
  | Fields.cons off (Ty.accessor ps dims accTarget) rest => by
    have ih := nestedAccessorTysFields_all_accessors rest
    simp [nestedAccessorTysFields, Ty.isStructureOrClassType,
      isSyclAccessorType, ih]
  | Fields.cons off (Ty.sampler ps arg0) rest => by
    have ih := nestedAccessorTysFields_all_accessors rest
    have h1 := nestedAccessorTys_all_accessors (Ty.sampler ps arg0)
    simp_all [nestedAccessorTysFields, Ty.isStructureOrClassType,
      isSyclAccessorType, List.all_append]
  | Fields.cons off (Ty.record sz sl fs2) rest => by
    have ih := nestedAccessorTysFields_all_accessors rest
    have h1 := nestedAccessorTys_all_accessors (Ty.record sz sl fs2)
    simp_all [nestedAccessorTysFields, Ty.isStructureOrClassType,
      isSyclAccessorType, List.all_append]
end

/-- Totality of the callee loop, generic in the recursive call: if the
recursive call succeeds (monotonically growing the kernel set, staying
inside the node universe) whenever fewer than `b` universe nodes are
missing from the kernel set, then so does the whole loop. -/
theorem collectCallees_total (univ : Finset Nat) (b : Nat)
    (recur : Nat → Finset Nat → CKState → Option CKState)
    (hrec : ∀ (c : Nat) (v : Finset Nat) (s : CKState), c ∈ univ →
      s.kernelSet ⊆ univ → univ.card - s.kernelSet.card < b →
      ∃ s', recur c v s = some s' ∧ s.kernelSet ⊆ s'.kernelSet ∧
        s'.kernelSet ⊆ univ)
    (calleeNode : Nat) (visitedSet : Finset Nat) :
    ∀ (cs : List Nat) (st : CKState), (∀ c ∈ cs, c ∈ univ) →
      st.kernelSet ⊆ univ → univ.card - st.kernelSet.card < b →
      ∃ st', collectCallees recur calleeNode visitedSet cs st = some st' ∧
        st.kernelSet ⊆ st'.kernelSet ∧ st'.kernelSet ⊆ univ := by
  intro cs
  induction cs with
  | nil =>
    intro st _ hsub _
    exact ⟨st, by simp [collectCallees], Finset.Subset.refl _, hsub⟩
  | cons c rest ih =>
    intro st hcs hsub hb
    by_cases hv : c ∈ visitedSet
    · obtain ⟨st', hrun, hmono, hsub'⟩ :=
        ih ⟨st.kernelSet, insert calleeNode (insert c st.recursiveSet)⟩
          (fun x hx => hcs x (List.mem_cons_of_mem _ hx)) hsub hb
      exact ⟨st', by simpa [collectCallees, hv] using hrun, hmono, hsub'⟩
    · obtain ⟨s1, hs1, hmono1, hsub1⟩ :=
        hrec c (insert c visitedSet) st (hcs c (List.mem_cons_self c rest))
          hsub hb
      have hb1 : univ.card - s1.kernelSet.card < b := by
        have := Finset.card_le_card hmono1
        omega
      obtain ⟨st', hrun, hmono2, hsub2⟩ :=
        ih s1 (fun x hx => hcs x (List.mem_cons_of_mem _ hx)) hsub1 hb1
      exact ⟨st', by simp [collectCallees, hv, hs1, hrun],
        Finset.Subset.trans hmono1 hmono2, hsub2⟩

/-- Totality of `collectKernelSet` on sufficient fuel: if every call-graph
edge stays inside a finite node universe `univ`, then fuel exceeding the
number of universe nodes missing from the kernel set suffices — the
traversal completes, growing the kernel set monotonically inside `univ`.
This is the memoized-termination argument of the C++ code made explicit:
each level of recursion permanently adds one node to `KernelSet`. -/
theorem collectKernelSet_total (univ : Finset Nat) (g : Nat → List Nat)
    (hg : ∀ n c, c ∈ g n → c ∈ univ) :
    ∀ (fuel : Nat) (calleeNode : Nat) (visitedSet : Finset Nat)
      (st : CKState), calleeNode ∈ univ → st.kernelSet ⊆ univ →
      univ.card - st.kernelSet.card < fuel →
      ∃ st', collectKernelSet g fuel calleeNode visitedSet st = some st' ∧
        st.kernelSet ⊆ st'.kernelSet ∧ st'.kernelSet ⊆ univ := by
  intro fuel
  induction fuel with
  | zero => intro _ _ _ _ _ hb; omega
  | succ fuel ih =>
    intro calleeNode visitedSet st hc hsub hb
    by_cases hmem : calleeNode ∈ st.kernelSet
    · exact ⟨st, by simp [collectKernelSet, hmem], Finset.Subset.refl _, hsub⟩
    · have hsub1 : (insert calleeNode st.kernelSet : Finset Nat) ⊆ univ :=
        Finset.insert_subset hc hsub
      have hb1 : univ.card - (insert calleeNode st.kernelSet).card < fuel := by
        have h1 : (insert calleeNode st.kernelSet).card =
            st.kernelSet.card + 1 := Finset.card_insert_of_not_mem hmem
        have h2 : (insert calleeNode st.kernelSet).card ≤ univ.card :=
          Finset.card_le_card hsub1
        omega
      obtain ⟨st', hrun, hmono, hsub'⟩ :=
        collectCallees_total univ fuel
          (fun c v s => collectKernelSet g fuel c v s)
          (fun c v s hcu hsu hbs => ih c v s hcu hsu hbs)
          calleeNode visitedSet (g calleeNode)
          ⟨insert calleeNode st.kernelSet, st.recursiveSet⟩
          (fun c hcm => hg _ _ hcm) hsub1 hb1
      exact ⟨st', by simpa [collectKernelSet, hmem] using hrun,
        Finset.Subset.trans (Finset.subset_insert _ _) hmono, hsub'⟩

/-- A found `IntelReqdSubGroupSizeAttr` is of that kind. -/
theorem isIntel_kind (a : AttrInst)
    (h : isIntelReqdSubGroupSizeAttr a = true) :
    a.kind = AttrKind.intelReqdSubGroupSize := by
  cases hk : a.kind <;> simp_all [isIntelReqdSubGroupSizeAttr]

/-- Every attribute the worklist walk accumulates beyond the initial set is
an `IntelReqdSubGroupSize` attribute, because the only insertion site is
guarded by `getAttr<IntelReqdSubGroupSizeAttr>`. -/
theorem collectPossibleKernelAttributes_kinds (g : Nat → List Nat)
    (attrsOf : Nat → List AttrInst) :
    ∀ (fuel : Nat) (wl visited : List Nat) (acc : List AttrInst),
      (∀ a ∈ acc, a.kind = AttrKind.intelReqdSubGroupSize) →
      ∀ a ∈ collectPossibleKernelAttributes g attrsOf fuel wl visited acc,
        a.kind = AttrKind.intelReqdSubGroupSize := by
  intro fuel
  induction fuel with
  | zero =>
    intro wl visited acc hacc a ha
    exact hacc a (by simpa [collectPossibleKernelAttributes] using ha)
  | succ fuel ih =>
    intro wl visited acc hacc a ha
    match wl with
    | [] =>
      exact hacc a (by simpa [collectPossibleKernelAttributes] using ha)
    | fd :: rest =>
      by_cases hv : fd ∈ visited
      · exact ih rest visited acc hacc a
          (by simpa [collectPossibleKernelAttributes, hv] using ha)
      · have hacc1 : ∀ x ∈
            (match getIntelReqdSubGroupSizeAttr attrsOf fd with
             | some b => if b ∈ acc then acc else acc ++ [b]
             | none => acc),
            x.kind = AttrKind.intelReqdSubGroupSize := by
          intro x hx
          cases hfind : getIntelReqdSubGroupSizeAttr attrsOf fd with
          | none => exact hacc x (by simpa [hfind] using hx)
          | some b =>
            have hbkind : b.kind = AttrKind.intelReqdSubGroupSize :=
              isIntel_kind b
                (List.find?_some (by simpa [getIntelReqdSubGroupSizeAttr]
                  using hfind))
            rw [hfind] at hx
            by_cases hbacc : b ∈ acc
            · exact hacc x (by simpa [hbacc] using hx)
            · simp only [hbacc, if_false, List.mem_append,
                List.mem_singleton] at hx
              rcases hx with hx | hx
              · exact hacc x hx
              · subst hx; exact hbkind
        exact ih _ _ _ hacc1 a
          (by simpa [collectPossibleKernelAttributes, hv] using ha)

/-- The `MarkDevice` attribute fold never reaches the `default:`
`llvm_unreachable` arm when every folded attribute is an
`IntelReqdSubGroupSize` attribute. -/
theorem markDeviceFold_no_unreachable :
    ∀ (l : List AttrInst) (st : MDState),
      (∀ a ∈ l, a.kind = AttrKind.intelReqdSubGroupSize) →
      st.unreachableHit = false →
      (l.foldl markDeviceAttrStep st).unreachableHit = false
  | [], st, _, hst => by simpa using hst
  | a :: l, st, hl, hst => by
    have ha : a.kind = AttrKind.intelReqdSubGroupSize :=
      hl a (List.mem_cons_self a l)
    have hstep : (markDeviceAttrStep st a).unreachableHit = false := by
      cases hea : st.existing with
      | none => simp [markDeviceAttrStep, ha, hea, hst]
      | some ex =>
        by_cases hvv : ex.value ≠ a.value <;>
          simp [markDeviceAttrStep, ha, hea, hvv, hst]
    exact markDeviceFold_no_unreachable l (markDeviceAttrStep st a)
      (fun x hx => hl x (List.mem_cons_of_mem _ hx)) hstep

/-- The top-level builder loop is the builder interpretation of the shared
classification trace. -/
theorem buildArgTysFields_factor : ∀ (fs : Fields),
    buildArgTysFields fs = eventsSlots (kernelTrace fs)
  | Fields.nil => by simp [buildArgTysFields, kernelTrace, eventsSlots]
  | Fields.cons off (Ty.scalar sz) rest => by
    have ih := buildArgTysFields_factor rest
    simp [buildArgTysFields, kernelTrace, Ty.isStructureOrClassType,
      Ty.isPointerType, Ty.isScalarType, isSyclAccessorType,
      isSyclSamplerType, eventsSlots_append, eventsSlots, builderOfEvent, ih]
  | Fields.cons off (Ty.pointer sz pAS) rest => by
    have ih := buildArgTysFields_factor rest
    simp [buildArgTysFields, kernelTrace, Ty.isStructureOrClassType,
      Ty.isPointerType, Ty.isScalarType, isSyclAccessorType,
      isSyclSamplerType, eventsSlots_append, eventsSlots, builderOfEvent, ih]
  | Fields.cons off (Ty.accessor ps dims accTarget) rest => by
    have ih := buildArgTysFields_factor rest
    simp [buildArgTysFields, kernelTrace, isSyclAccessorType,
      isSyclSamplerType, eventsSlots_append, eventsSlots, builderOfEvent, ih]
  | Fields.cons off (Ty.sampler ps arg0) rest => by
    have ih := buildArgTysFields_factor rest
    simp [buildArgTysFields, kernelTrace, isSyclAccessorType,
      isSyclSamplerType, eventsSlots_append, eventsSlots, builderOfEvent, ih]
  | Fields.cons off (Ty.record sz sl fs2) rest => by
    have ih := buildArgTysFields_factor rest
    have h1 := wrappedSlots_factor (Ty.record sz sl fs2) off
    simp [buildArgTysFields, kernelTrace, Ty.isStructureOrClassType,
      isSyclAccessorType, isSyclSamplerType, eventsSlots_append, eventsSlots,
      builderOfEvent, ih, h1]

/-- The top-level header-codegen loop is the header interpretation of the
shared classification trace. -/
theorem populateIntHeaderFields_factor : ∀ (fs : Fields),
    populateIntHeaderFields fs = eventsHDescs (kernelTrace fs)
  | Fields.nil => by simp [populateIntHeaderFields, kernelTrace, eventsHDescs]
  | Fields.cons off (Ty.scalar sz) rest => by
    have ih := populateIntHeaderFields_factor rest
    simp [populateIntHeaderFields, kernelTrace, Ty.isStructureOrClassType,
      Ty.isPointerType, Ty.isScalarType, isSyclAccessorType,
      isSyclSamplerType, eventsHDescs_append, eventsHDescs, headerOfEvent, ih]
  | Fields.cons off (Ty.pointer sz pAS) rest => by
    have ih := populateIntHeaderFields_factor rest
    simp [populateIntHeaderFields, kernelTrace, Ty.isStructureOrClassType,
      Ty.isPointerType, Ty.isScalarType, isSyclAccessorType,
      isSyclSamplerType, eventsHDescs_append, eventsHDescs, headerOfEvent, ih]
  | Fields.cons off (Ty.accessor ps dims accTarget) rest => by
    have ih := populateIntHeaderFields_factor rest
    simp [populateIntHeaderFields, kernelTrace, isSyclAccessorType,
      isSyclSamplerType, eventsHDescs_append, eventsHDescs, headerOfEvent, ih]
  | Fields.cons off (Ty.sampler ps arg0) rest => by
    have ih := populateIntHeaderFields_factor rest
    simp [populateIntHeaderFields, kernelTrace, isSyclAccessorType,
      isSyclSamplerType, eventsHDescs_append, eventsHDescs, headerOfEvent, ih]
  | Fields.cons off (Ty.record sz sl fs2) rest => by
    have ih := populateIntHeaderFields_factor rest
    have h1 := wrappedHeader_factor (Ty.record sz sl fs2) off
    simp [populateIntHeaderFields, kernelTrace, Ty.isStructureOrClassType,
      Ty.isPointerType, Ty.isScalarType, isSyclAccessorType,
      isSyclSamplerType, eventsHDescs_append, eventsHDescs, headerOfEvent,
      ih, h1]

/-- Claim C1 (code evaluated at the failing input): in the emitted artifact
for a registry of two kernels with one descriptor each, `kernel_signatures`
holds exactly the two descriptors back to back (no sentinel slot is
emitted), `kernel_signature_start` is `[0, 2]` (accumulated with `+1` per
kernel), so its second entry does not index kernel B's first descriptor
(which sits at index 1) and even lies past the end of the array — while the
emitted `getParamDesc` of kernel B, which uses the `+N` accumulation
without `+1`, does return kernel B's descriptor. -/
theorem c1_start_table_mismatch :
    kernelSignatures exRegistry =
      [⟨ParamKind.stdLayoutKind, 4, 0⟩, ⟨ParamKind.stdLayoutKind, 8, 0⟩]
    ∧ kernelSignatureStart 0 exRegistry = [0, 2]
    ∧ (kernelSignatures exRegistry)[(kernelSignatureStart 0 exRegistry).getD 1 0]? =
        none
    ∧ getParamDescModel exRegistry 1 0 = some ⟨ParamKind.stdLayoutKind, 8, 0⟩ := by
  refine ⟨rfl, rfl, rfl, rfl⟩

/-- Claim C2, counterexample: the call chain `0 → 1 → 2 → 0` is reachable
from the kernel entry point `0` (it starts there), yet
`CollectKernelSet` run from that entry marks nothing recursive — the entry
point is never placed in the path-local visited set, so the closing edge
`2 → 0` just re-enters the memoized entry and returns — and consequently
the later call-site walk emits no recursion diagnostic at all. -/
theorem c2_counterexample :
    (collectKernelSet gEntryCycle 10 0 ∅ ⟨∅, ∅⟩).map
      (fun st => (st.recursiveSet.card,
        diagReferencedCallees [(0, 1), (1, 2), (2, 0)] st.recursiveSet)) =
      some (0, [])
    ∧ ¬ (collectKernelSet gEntryCycle 10 0 ∅ ⟨∅, ∅⟩).map
        (fun st => decide (0 ∈ st.recursiveSet ∧ 1 ∈ st.recursiveSet ∧
          2 ∈ st.recursiveSet)) = some true := by
  exact ⟨by decide, by decide⟩

/-- Claim C2, amended: a cycle `1 → 2 → 3 → 1` strictly below the entry
point `0` is detected at its closing edge — exactly the closing edge's
callee (`1`) and caller (`3`) are marked recursive, the intermediate node
`2` is not, and the recursion diagnostics reference `1` and `3` but never
`2`; and the traversal terminates on any call graph: with every edge inside
a finite node universe, fuel exceeding the universe size (one unit per
node ever added to the memoizing kernel set, i.e. O(call-graph size))
always yields a result. -/
theorem c2_below_entry_cycle_detection :
    ((collectKernelSet gBelowCycle 10 0 ∅ ⟨∅, ∅⟩).map
      (fun st => (decide (1 ∈ st.recursiveSet), decide (2 ∈ st.recursiveSet),
        decide (3 ∈ st.recursiveSet), st.recursiveSet.card,
        diagReferencedCallees edgesBelowCycle st.recursiveSet)) =
      some (true, false, true, 2, [1, 3, 1]))
    ∧ (∀ (univ : Finset Nat) (g : Nat → List Nat) (fuel entry : Nat),
        (∀ n c, c ∈ g n → c ∈ univ) → entry ∈ univ → univ.card < fuel →
        (collectKernelSet g fuel entry ∅ ⟨∅, ∅⟩).isSome = true) := by
  constructor
  · decide
  · intro univ g fuel entry hg hentry hfuel
    obtain ⟨st', hrun, -, -⟩ :=
      collectKernelSet_total univ g hg fuel entry ∅ ⟨∅, ∅⟩ hentry
        (Finset.empty_subset univ) (by simpa using hfuel)
    simp [hrun]

/-- Claim C2, witness: the termination part applied to the concrete
four-node graph. -/
theorem c2_below_entry_cycle_detection_witness :
    (collectKernelSet gBelowCycle 10 0 ∅ ⟨∅, ∅⟩).isSome = true := by
  refine c2_below_entry_cycle_detection.2 {0, 1, 2, 3} gBelowCycle 10 0
    ?_ (by decide) (by decide)
  intro n c hc
  match n with
  | 0 => simp [gBelowCycle] at hc; simp [hc]
  | 1 => simp [gBelowCycle] at hc; simp [hc]
  | 2 => simp [gBelowCycle] at hc; simp [hc]
  | 3 => simp [gBelowCycle] at hc; simp [hc]
  | n + 4 => simp [gBelowCycle] at hc

/-- Claim C3, counterexample: for a kernel-object field whose type is a
wrapper aggregate containing a sampler (a special object with a
one-parameter `__init` contract), the builder emits only the aggregate's
own slot — the nested sampler is not discovered and its contract slot is
not appended (the nested re-scan tests `isSyclAccessorType` only and
recurses into the sampler as if it were another wrapper). -/
theorem c3_counterexample :
    buildArgTysFields kernelObjWithWrappedSampler =
      [SlotTy.ofTy wrapperWithSampler]
    ∧ ¬ buildArgTysFields kernelObjWithWrappedSampler =
        [SlotTy.ofTy wrapperWithSampler, SlotTy.initParamTy 7] := by
  exact ⟨rfl, by decide⟩

/-- Claim C3, amended: for a wrapper-aggregate field the builder first
appends one raw slot for the aggregate itself and then the slots of the
nested special objects it discovers, in field order — but the nested
re-scan discovers nested *accessors only* (each contributing its contract
slots); nested samplers are treated like further wrapper aggregates and
contribute no contract slots.  The body synthesizer assigns the aggregate
from its slot and then initializes the discovered nested accessors relative
to the already-assigned aggregate member. -/
theorem c3_wrapper_aggregate_flattening (pre : Fields) (off sz : Nat)
    (sl : Bool) (fs post : Fields) :
    buildArgTysFields
        (Fields.append pre (Fields.cons off (Ty.record sz sl fs) post)) =
      buildArgTysFields pre ++
        ((SlotTy.ofTy (Ty.record sz sl fs) :: wrappedAccessorSlots fs) ++
          buildArgTysFields post)
    ∧ wrappedAccessorSlots fs = specialSlotsOfList (nestedAccessorTysFields fs)
    ∧ (nestedAccessorTysFields fs).all isSyclAccessorType = true
    ∧ (bodyFields
          (Fields.append pre (Fields.cons off (Ty.record sz sl fs) post))
          0 0).1 =
        (bodyFields pre 0 0).1 ++
          (KStmt.assignStmt
              (KExpr.member KExpr.localRef (Fields.numFields pre))
              (buildArgTysFields pre).length ::
            ((wrappedAccessorInitFields fs 0
                (KExpr.member KExpr.localRef (Fields.numFields pre))
                (buildArgTysFields pre).length).1 ++
              (bodyFields post (Fields.numFields pre + 1)
                ((buildArgTysFields pre).length +
                  (wrappedAccessorSlots fs).length + 1)).1)) := by
  refine ⟨?_, wrappedSlotsFields_as_discovered fs,
    nestedAccessorTysFields_all_accessors fs, ?_⟩
  · simp [buildArgTysFields_append, buildArgTysFields,
      Ty.isStructureOrClassType, isSyclAccessorType, isSyclSamplerType,
      createParamDescForWrappedAccessors]
  · have happ := bodyFields_append pre
      (Fields.cons off (Ty.record sz sl fs) post) 0 0
    have hctr := bodyFields_ctr pre 0 0
    have hwc := wrappedAccessorInitFields_ctr fs 0
      (KExpr.member KExpr.localRef (Fields.numFields pre))
      (buildArgTysFields pre).length
    simp [happ, hctr, hwc, bodyFields, Ty.isStructureOrClassType,
      Ty.hasCXXRecordDecl, isSyclAccessorType, isSyclSamplerType,
      wrappedAccessorInit]

/-- Claim C4: for a kernel-object field that is a special object (accessor
or sampler) whose `__init` contract takes `N` parameters, the builder
appends exactly those `N` contract parameter types as raw slots at that
field's position, and the synthesized body contains the `__init` call on
that field passing exactly the `N` consecutive kernel parameters allocated
to those slots, in contract order. -/
theorem c4_special_field_lockstep (pre : Fields) (off : Nat) (t : Ty)
    (post : Fields)
    (hspecial : isSyclAccessorType t = true ∨ isSyclSamplerType t = true) :
    buildArgTysFields (Fields.append pre (Fields.cons off t post)) =
      buildArgTysFields pre ++
        ((initParamTysOf t).map SlotTy.initParamTy ++ buildArgTysFields post)
    ∧ (bodyFields (Fields.append pre (Fields.cons off t post)) 0 0).1 =
        (bodyFields pre 0 0).1 ++
          (KStmt.initCall
              (KExpr.member KExpr.localRef (Fields.numFields pre))
              ((List.range (initParamTysOf t).length).map
                (fun i => (buildArgTysFields pre).length + i)) ::
            (bodyFields post (Fields.numFields pre + 1)
              ((buildArgTysFields pre).length +
                (initParamTysOf t).length)).1) := by
  have happ := bodyFields_append pre (Fields.cons off t post) 0 0
  have hctr := bodyFields_ctr pre 0 0
  rcases hspecial with hacc | hsam
  · cases t <;> simp_all [isSyclAccessorType]
    case accessor ps dims accTarget =>
      constructor
      · simp [buildArgTysFields_append, buildArgTysFields, isSyclAccessorType,
          createSpecialSYCLObjParamDesc, initParamTysOf]
      · simp [happ, hctr, bodyFields, isSyclAccessorType, isSyclSamplerType,
          specialObjInit, initParamTysOf]
  · cases t <;> simp_all [isSyclSamplerType]
    case sampler ps arg0 =>
      constructor
      · simp [buildArgTysFields_append, buildArgTysFields, isSyclAccessorType,
          isSyclSamplerType, createSpecialSYCLObjParamDesc, initParamTysOf]
      · simp [happ, hctr, bodyFields, isSyclAccessorType, isSyclSamplerType,
          specialObjInit, initParamTysOf]

/-- Claim C4, witness: a kernel object whose single field is an accessor
with a three-parameter contract yields exactly three raw slots and an
`__init` call passing parameters 0, 1, 2. -/
theorem c4_special_field_lockstep_witness :
    buildArgTysFields
        (Fields.append Fields.nil
          (Fields.cons 4 (Ty.accessor [10, 11, 12] 1 2014) Fields.nil)) =
      [SlotTy.initParamTy 10, SlotTy.initParamTy 11, SlotTy.initParamTy 12]
    ∧ (bodyFields
          (Fields.append Fields.nil
            (Fields.cons 4 (Ty.accessor [10, 11, 12] 1 2014) Fields.nil))
          0 0).1 =
        [KStmt.initCall (KExpr.member KExpr.localRef 0) [0, 1, 2]] := by
  have h := c4_special_field_lockstep Fields.nil 4
    (Ty.accessor [10, 11, 12] 1 2014) Fields.nil (Or.inl rfl)
  simpa using h

/-- Claim C5: for an accessor nested two wrapper-aggregate levels deep, the
emitted parameter descriptor's offset is the sum of the outer field's byte
offset in the kernel object, the middle wrapper's byte offset in the outer
wrapper, and the accessor's byte offset in the middle wrapper; the emitted
descriptors are exactly the outer wrapper's `std_layout` descriptor
followed by the accessor descriptor. -/
theorem c5_two_level_nested_offset (o1 o2 o3 s1 s2 : Nat) (sl1 sl2 : Bool)
    (ps : List Nat) (dims accTarget : Nat) :
    populateIntHeaderFields
      (Fields.cons o1
        (Ty.record s1 sl1
          (Fields.cons o2
            (Ty.record s2 sl2
              (Fields.cons o3 (Ty.accessor ps dims accTarget) Fields.nil))
            Fields.nil))
        Fields.nil) =
      [⟨ParamKind.stdLayoutKind, s1, o1⟩,
       ⟨ParamKind.accessorKind, accTarget ||| (dims <<< 11), o1 + o2 + o3⟩] := by
  simp [populateIntHeaderFields, populateHeaderForWrappedAccessors,
    headerWrappedFields, populateHeaderForAccessor, accessorInfo,
    Ty.isStructureOrClassType, isSyclAccessorType, isSyclSamplerType,
    Ty.isPointerType, Ty.isScalarType, Ty.sizeOfTy]

/-- Claim C6: the field classification is a pure function of the type
applied identically at both generation sites — the signature builder
(`buildArgTysFields`) and the header codegen (`populateIntHeaderFields`)
both factor through one shared classification traversal (`kernelTrace`
with `classifyTraceTy` for nested wrappers), visiting the same fields in
the same order with the same classification; each site only interprets the
common trace's events into its own output. -/
theorem c6_shared_classification_traversal :
    (∀ fs : Fields, buildArgTysFields fs = eventsSlots (kernelTrace fs))
    ∧ (∀ fs : Fields,
        populateIntHeaderFields fs = eventsHDescs (kernelTrace fs)) :=
  ⟨buildArgTysFields_factor, populateIntHeaderFields_factor⟩

/-- Claim C7: two `IntelReqdSubGroupSize` attributes with values 16 and 32
reaching one kernel (in either pointer-set iteration order) produce exactly
one conflict diagnostic with exactly two notes (one per contributing
origin) and invalidate the kernel; two with the same value produce no
diagnostic and leave the attribute attached.  The last conjunct grounds the
"two call paths" part: the worklist walk over a kernel calling two
functions carrying the attributes collects exactly those two attributes. -/
theorem c7_attribute_conflict (a b : AttrInst) (l : List AttrInst)
    (ha : a.kind = AttrKind.intelReqdSubGroupSize)
    (hb : b.kind = AttrKind.intelReqdSubGroupSize)
    (hl : l = [a, b] ∨ l = [b, a]) :
    ((a.value = 16 ∧ b.value = 32) →
      (markDeviceAttrs none l).conflictDiags = 1 ∧
      (markDeviceAttrs none l).conflictNotes = 2 ∧
      (markDeviceAttrs none l).invalid = true)
    ∧ (a.value = b.value →
      (markDeviceAttrs none l).conflictDiags = 0 ∧
      (markDeviceAttrs none l).invalid = false ∧
      ((markDeviceAttrs none l).existing = some a ∨
        (markDeviceAttrs none l).existing = some b))
    ∧ collectPossibleKernelAttributes gAttrPaths attrsOfConflict 10 [0] [] [] =
        [⟨2, AttrKind.intelReqdSubGroupSize, 32⟩,
         ⟨1, AttrKind.intelReqdSubGroupSize, 16⟩] := by
  refine ⟨?_, ?_, by decide⟩
  · rintro ⟨hva, hvb⟩
    rcases hl with rfl | rfl <;>
      simp [markDeviceAttrs, markDeviceAttrStep, ha, hb, hva, hvb]
  · intro hv
    rcases hl with rfl | rfl
    · simp [markDeviceAttrs, markDeviceAttrStep, ha, hb, hv]
    · simp [markDeviceAttrs, markDeviceAttrStep, ha, hb, hv]

/-- Claim C7, witness: the conflict half applied to two concrete attributes
with values 16 and 32. -/
theorem c7_attribute_conflict_witness :
    (markDeviceAttrs none
      [⟨1, AttrKind.intelReqdSubGroupSize, 16⟩,
       ⟨2, AttrKind.intelReqdSubGroupSize, 32⟩]).conflictDiags = 1 ∧
    (markDeviceAttrs none
      [⟨1, AttrKind.intelReqdSubGroupSize, 16⟩,
       ⟨2, AttrKind.intelReqdSubGroupSize, 32⟩]).conflictNotes = 2 ∧
    (markDeviceAttrs none
      [⟨1, AttrKind.intelReqdSubGroupSize, 16⟩,
       ⟨2, AttrKind.intelReqdSubGroupSize, 32⟩]).invalid = true :=
  (c7_attribute_conflict ⟨1, AttrKind.intelReqdSubGroupSize, 16⟩
    ⟨2, AttrKind.intelReqdSubGroupSize, 32⟩ _ rfl rfl (Or.inl rfl)).1
    ⟨rfl, rfl⟩

/-- Claim C8, counterexample: the synthesized body of a kernel object with
zero fields is not just the spliced caller body — the local kernel-object
clone declaration is always pushed first. -/
theorem c8_counterexample :
    ¬ createOpenCLKernelBody Fields.nil = [KStmt.spliced] := by decide

/-- Claim C8, amended: a kernel object with zero fields yields an entry
point with zero parameters whose body is the local kernel-object clone
declaration followed by the spliced caller body, with no field
initialization statements. -/
theorem c8_stateless_kernel :
    entryPointParamCount Fields.nil = 0
    ∧ createOpenCLKernelBody Fields.nil =
        [KStmt.declareClone, KStmt.spliced] :=
  ⟨rfl, rfl⟩

/-- Claim C9: emission fails (returns `false`, writes nothing) exactly on
an unwritable output target — granting that the empty target name, which
the code rejects before trying to open, is unwritable — and on every
writable target it writes the artifact and returns `true`; the failure is
just a return value (reported to a side channel), aborting nothing. -/
theorem c9_emit_fails_only_unwritable (name : String)
    (writable : String → Bool) (ks : List KernelDesc)
    (hempty : writable "" = false) :
    (((emitToTarget name writable ks).1 = false ∧
      (emitToTarget name writable ks).2 = none) ↔ writable name = false)
    ∧ (writable name = true →
      emitToTarget name writable ks = (true, some (emitArtifact ks))) := by
  by_cases hn : name = ""
  · subst hn
    simp [emitToTarget, hempty]
  · by_cases hw : writable name = true
    · simp [emitToTarget, hn, hw]
    · simp_all [emitToTarget, hn]

/-- Claim C9, witness: a writable target receives the artifact. -/
theorem c9_emit_fails_only_unwritable_witness :
    emitToTarget "out.h" (fun s => !(s == "")) [⟨"k", []⟩] =
      (true, some (emitArtifact [⟨"k", []⟩])) :=
  (c9_emit_fails_only_unwritable "out.h" (fun s => !(s == "")) [⟨"k", []⟩]
    (by decide)).2 (by decide)

/-- Claim C10: every attribute the propagation walk collects is an
`IntelReqdSubGroupSize` attribute (the only insertion is guarded by
`getAttr<IntelReqdSubGroupSizeAttr>`), so the `default: llvm_unreachable`
arm of `MarkDevice`'s switch over the collected attributes is never
executed — for any call graph, attribute assignment, fuel and kernel. -/
theorem c10_no_unreachable_default (g : Nat → List Nat)
    (attrsOf : Nat → List AttrInst) (fuel kernel : Nat)
    (kernelAttr : Option AttrInst) :
    (markDeviceAttrs kernelAttr
      (collectPossibleKernelAttributes g attrsOf fuel [kernel] []
        [])).unreachableHit = false :=
  markDeviceFold_no_unreachable _ _
    (collectPossibleKernelAttributes_kinds g attrsOf fuel [kernel] [] []
      (by simp)) rfl
